import Mathlib

/-!
Verification of the archive transfer client (`src/second_brain/infrastructure/aws/s3.py`).

The Python class `S3Client` zips a local folder and uploads it to an object-storage
bucket, and conversely downloads a zip object and extracts it.  This file gives a
shallow embedding of that code and settles the specification claims against it.

Modelling choices:
  * The boto3 transport is a record of response functions (`Transport`); a
    `ClientError` is identified by its response error code string, which is the
    only part of it the code inspects.
  * Each operation returns the post-state of the client object, an event trace
    recording its side effects in program order, and an optional error
    (the Python exception that propagates to the caller, if any).
  * The local directory tree handed to `upload_folder` is a rose tree `FSNode`;
    `os.walk` is embedded as `osWalkFiles`/`walkDirs` (for each directory the
    regular files are emitted first, then each subdirectory is walked).
  * The destination filesystem of `download_folder` is a flat record of
    existing directory paths and files (`LocalFS`); `Path.mkdir` with
    `parents` and `exist_ok` set, and `ZipFile.extractall`, are embedded as
    `mkdir_parents_exist_ok` and `extractAllFS`.
  * Paths on the local filesystem are lists of name components; bucket names,
    object keys and temp-file names are strings.
-/

/-- Python `s.rstrip("/")`: drop every trailing `/` character. -/
def pyRstripSlash (s : String) : String :=
  String.mk ((s.data.reverse.dropWhile (fun c => c = '/')).reverse)

/-- Python `s.lstrip("/")`: drop every leading `/` character. -/
def pyLstripSlash (s : String) : String :=
  String.mk (s.data.dropWhile (fun c => c = '/'))

/-- The client object: `self.bucket_name` and `self.region`, set in `__init__`. -/
structure S3Client where
  bucket_name : String
  region : String
deriving DecidableEq

/-- The exceptions the embedded code can raise, carrying the data their Python
messages carry. `clientError` is a boto `ClientError` identified by its
response error code. -/
inductive Err where
  | fileNotFound (path : List String)
  | notADirectory (path : List String)
  | fileExists (path : List String)
  | clientError (code : String)
  | bucketCreateFailed (bucket : String) (cause : String)
  | noPermission (bucket : String)
  | unlinkFailed (path : String)
deriving DecidableEq

/-- Observable side effects, in program order. -/
inductive Event where
  | headBucket (bucket : String)
  | createBucket (bucket : String) (region : String)
  | createTemp (path : String)
  | zipWrite (path : String) (entries : List (List String))
  | uploadFile (src : String) (bucket : String) (key : String)
  | downloadFile (bucket : String) (key : String) (dst : String)
  | mkdirParents (path : List String)
  | extractAll (src : String) (dest : List String)
  | unlink (path : String) (ok : Bool)
deriving DecidableEq

/-- The storage transport (boto3 S3 client): each call either succeeds or
raises a `ClientError` with the given response code.  A successful
`downloadFile` yields the entry list of the fetched zip object. -/
structure Transport where
  headBucket : String → Except String Unit
  createBucket : String → String → Except String Unit
  uploadFile : String → String → String → Except String Unit
  downloadFile : String → String → Except String (List (List String × Nat))

/-- A node of the local directory tree: a regular file or a directory with
named children. -/
inductive FSNode where
  | file : FSNode
  | dir : List (String × FSNode) → FSNode

/-- The regular files of one directory level, as paths `pref ++ [name]`
(the `filenames` component of one `os.walk` triple). -/
def filesOfLevel (pref : List String) (es : List (String × FSNode)) : List (List String) :=
  es.filterMap (fun e =>
    match e.2 with
    | FSNode.file => some (pref ++ [e.1])
    | FSNode.dir _ => none)

mutual
/-- `os.walk` over a directory with entries `es`, collecting for every regular
file its path relative to the walk root: the current level's files first, then
each subdirectory in order (top-down traversal). -/
def osWalkFiles (pref : List String) (es : List (String × FSNode)) : List (List String) :=
  filesOfLevel pref es ++ walkDirs pref es
termination_by sizeOf es + 1

/-- The recursive part of `osWalkFiles`: walk every subdirectory among `es`. -/
def walkDirs (pref : List String) (es : List (String × FSNode)) : List (List String) :=
  match es with
  | [] => []
  | (_, FSNode.file) :: rest => walkDirs pref rest
  | (n, FSNode.dir sub) :: rest => osWalkFiles (pref ++ [n]) sub ++ walkDirs pref rest
termination_by sizeOf es
end

/-- Reachability of a regular file by recursive traversal: `ReachFile es p`
holds when, starting from a directory with entries `es`, the component path
`p` leads to a regular file. -/
inductive ReachFile : List (String × FSNode) → List String → Prop
  | here {es : List (String × FSNode)} {n : String}
      (h : (n, FSNode.file) ∈ es) : ReachFile es [n]
  | there {es : List (String × FSNode)} {n : String} {sub : List (String × FSNode)}
      {p : List String}
      (h : (n, FSNode.dir sub) ∈ es) (hp : ReachFile sub p) : ReachFile es (n :: p)

/-- `Path(local_path).name`: the base name of a component path. -/
def baseName (p : List String) : String := p.getLastD ""

/-- `__create_bucket_if_doesnt_exist`: probe the bucket with `head_bucket`;
on a `404` response attempt `create_bucket` in the client's region, raising
a wrapping exception if creation fails; on a `403` raise a permission
exception without attempting creation; re-raise any other `ClientError`. -/
def createBucketIfDoesntExist (t : Transport) (bucket : String) (region : String) :
    List Event × Option Err :=
  match t.headBucket bucket with
  | Except.ok _ => ([Event.headBucket bucket], none)
  | Except.error code =>
    if code = "404" then
      match t.createBucket bucket region with
      | Except.ok _ =>
          ([Event.headBucket bucket, Event.createBucket bucket region], none)
      | Except.error cause =>
          ([Event.headBucket bucket, Event.createBucket bucket region],
           some (Err.bucketCreateFailed bucket cause))
    else if code = "403" then
      ([Event.headBucket bucket], some (Err.noPermission bucket))
    else
      ([Event.headBucket bucket], some (Err.clientError code))

/-- Result of one `upload_folder` call: the client object afterwards, the
side-effect trace, and the propagated exception if any. -/
structure UploadResult where
  self : S3Client
  trace : List Event
  error : Option Err
deriving DecidableEq

/-- `upload_folder(local_path, s3_prefix)`.

`local_path` is the argument path (component list) and `node` is what the
local filesystem holds at that path: `none` when the path does not exist,
`some FSNode.file` when it is not a directory, `some (FSNode.dir es)` when it
is a directory with entries `es`.  `tempPath` is the generated name of the
temporary zip file and `unlinkOk` tells whether the final `os.unlink`
succeeds.  Mirrors the Python control flow: ensure the bucket exists first,
then check the preconditions, then build the zip, upload it, and unlink the
temp file only on the straight-line (non-raising) path. -/
def upload_folder (c : S3Client) (t : Transport) (local_path : List String)
    (node : Option FSNode) ( s3_prefix : String) (tempPath : String)
    (unlinkOk : Bool) : UploadResult :=
  match createBucketIfDoesntExist t c.bucket_name c.region with
  | (tr, some e) => ⟨c, tr, some e⟩
  | (tr, none) =>
    match node with
    | none => ⟨c, tr, some (Err.fileNotFound local_path)⟩
    | some FSNode.file => ⟨c, tr, some (Err.notADirectory local_path)⟩
    | some (FSNode.dir es) =>
      let entries := osWalkFiles [] es
      let zip_filename := baseName local_path ++ ".zip"
      let s3_key := pyLstripSlash (pyRstripSlash s3_prefix ++ "/" ++ zip_filename)
      let tr2 := tr ++ [Event.createTemp tempPath, Event.zipWrite tempPath entries]
      match t.uploadFile tempPath c.bucket_name s3_key with
      | Except.error code =>
          ⟨c, tr2 ++ [Event.uploadFile tempPath c.bucket_name s3_key],
           some (Err.clientError code)⟩
      | Except.ok _ =>
        let tr3 := tr2 ++ [Event.uploadFile tempPath c.bucket_name s3_key]
        if unlinkOk then ⟨c, tr3 ++ [Event.unlink tempPath true], none⟩
        else ⟨c, tr3 ++ [Event.unlink tempPath false], some (Err.unlinkFailed tempPath)⟩

/-- Modelled from the spec (§3, §4.1): the remote key is
`<remotePrefix-without-trailing-slash>/<baseName(localPath)>.zip`, stripped
of any leading separator.  Stated separately from `upload_folder` so that the
key the code computes can be compared against the spec's formula. -/
def specRemoteKey (remotePre : String) (name : String) : String :=
  pyLstripSlash (pyRstripSlash remotePre ++ "/" ++ name ++ ".zip")

/-- The destination filesystem of `download_folder`: the directory paths that
exist and the files that exist (path and content). -/
structure LocalFS where
  dirs : List (List String)
  files : List (List String × Nat)
deriving DecidableEq

/-- The nonempty component-wise path segments of `p`, shortest first; the last
element is `p` itself. -/
def prefixesOf : List String → List (List String)
  | [] => []
  | a :: rest => [a] :: (prefixesOf rest).map (fun q => a :: q)

/-- The proper ancestors of a path (every element of `prefixesOf` except the
path itself). -/
def strictPrefixesOf (p : List String) : List (List String) :=
  (prefixesOf p).dropLast

/-- Whether a regular file exists at path `q`. -/
def existsFileAt (fs : LocalFS) (q : List String) : Bool :=
  fs.files.any (fun e => decide (e.1 = q))

/-- `Path(p).mkdir(parents=True, exist_ok=True)`: if `p` already exists as a
directory this is a no-op; if `p` exists as a file the exist-ok flag does not
apply and a file-exists error is raised; if an ancestor exists as a file the
descent raises a not-a-directory error; otherwise every missing segment of
the chain is created. -/
def mkdir_parents_exist_ok (fs : LocalFS) (p : List String) : Except Err LocalFS :=
  if p ∈ fs.dirs then Except.ok fs
  else if existsFileAt fs p then Except.error (Err.fileExists p)
  else if (prefixesOf p).any (fun q => existsFileAt fs q) then
    Except.error (Err.notADirectory p)
  else
    Except.ok { fs with
      dirs := fs.dirs ++ (prefixesOf p).filter (fun q => decide (q ∉ fs.dirs)) }

/-- `ZipFile.extractall(dest)`: every entry `(rel, content)` is written to
`dest ++ rel`, replacing any file already at that path and leaving other
files in place; the subdirectories implied by entry names are created. -/
def extractAllFS (fs : LocalFS) (dest : List String)
    (entries : List (List String × Nat)) : LocalFS :=
  { dirs := fs.dirs ++
      ((entries.flatMap (fun e => strictPrefixesOf (dest ++ e.1))).filter
        (fun q => decide (q ∉ fs.dirs)))
  , files := fs.files.filter (fun f => decide (∀ e ∈ entries, dest ++ e.1 ≠ f.1)) ++
      entries.map (fun e => (dest ++ e.1, e.2)) }

/-- Result of one `download_folder` call: the client object afterwards, the
destination filesystem afterwards, the side-effect trace, and the propagated
exception if any. -/
structure DownloadResult where
  self : S3Client
  fs : LocalFS
  trace : List Event
  error : Option Err
deriving DecidableEq

/-- `download_folder(s3_prefix, local_path)`: create a temporary file,
`download_file` the object at the key into it, create the destination
directory chain with exist-ok semantics, extract every zip entry into it, and
unlink the temporary file on the straight-line (non-raising) path only. -/
def download_folder (c : S3Client) (t : Transport) (fs : LocalFS)
    ( s3_prefix : String) (local_path : List String) (tempPath : String)
    (unlinkOk : Bool) : DownloadResult :=
  match t.downloadFile c.bucket_name s3_prefix with
  | Except.error code =>
      ⟨c, fs,
       [Event.createTemp tempPath, Event.downloadFile c.bucket_name s3_prefix tempPath],
       some (Err.clientError code)⟩
  | Except.ok entries =>
    let tr1 := [Event.createTemp tempPath,
                Event.downloadFile c.bucket_name s3_prefix tempPath]
    match mkdir_parents_exist_ok fs local_path with
    | Except.error e => ⟨c, fs, tr1 ++ [Event.mkdirParents local_path], some e⟩
    | Except.ok fs1 =>
      let fs2 := extractAllFS fs1 local_path entries
      let tr2 := tr1 ++ [Event.mkdirParents local_path,
                         Event.extractAll tempPath local_path]
      if unlinkOk then ⟨c, fs2, tr2 ++ [Event.unlink tempPath true], none⟩
      else ⟨c, fs2, tr2 ++ [Event.unlink tempPath false],
            some (Err.unlinkFailed tempPath)⟩

/-- One method call on a client instance, with everything the call consumes. -/
inductive Op where
  | upload (t : Transport) (local_path : List String) (node : Option FSNode)
      (pre : String) (tempPath : String) (unlinkOk : Bool)
  | download (t : Transport) (fs : LocalFS) (pre : String)
      (local_path : List String) (tempPath : String) (unlinkOk : Bool)

/-- Run one method call and keep the resulting client object. -/
def runOp (c : S3Client) : Op → S3Client
  | Op.upload t lp node pre tmp uok => (upload_folder c t lp node pre tmp uok).self
  | Op.download t fs pre lp tmp uok => (download_folder c t fs pre lp tmp uok).self

/-- Run a sequence of method calls on one client instance. -/
def runOps (c : S3Client) : List Op → S3Client
  | [] => c
  | op :: rest => runOps (runOp c op) rest

/-- The bucket-ensure step only ever records the probe, possibly followed by
one creation attempt. -/
theorem ensure_trace_cases (t : Transport) (b : String) (r : String) :
    (createBucketIfDoesntExist t b r).1 = [Event.headBucket b] ∨
    (createBucketIfDoesntExist t b r).1 =
      [Event.headBucket b, Event.createBucket b r] := by
  unfold createBucketIfDoesntExist
  rcases h : t.headBucket b with code | _
  · by_cases h4 : code = "404"
    · rcases hc : t.createBucket b r with cause | _ <;> simp [h4, hc]
    · by_cases h3 : code = "403" <;> simp [h4, h3]
  · simp

/-- The probe event is always in the bucket-ensure trace. -/
theorem headBucket_mem_ensure_trace (t : Transport) (b : String) (r : String) :
    Event.headBucket b ∈ (createBucketIfDoesntExist t b r).1 := by
  rcases ensure_trace_cases t b r with h | h <;> simp [h]

/-- Membership in the file entries of one directory level. -/
theorem mem_filesOfLevel (pref : List String) (p : List String)
    (es : List (String × FSNode)) :
    p ∈ filesOfLevel pref es ↔ ∃ n, (n, FSNode.file) ∈ es ∧ p = pref ++ [n] := by
  simp only [filesOfLevel, List.mem_filterMap]
  constructor
  · rintro ⟨⟨n, node⟩, hmem, hf⟩
    cases node with
    | file =>
        simp only [Option.some.injEq] at hf
        exact ⟨n, hmem, hf.symm⟩
    | dir sub => simp at hf
  · rintro ⟨n, hmem, rfl⟩
    exact ⟨(n, FSNode.file), hmem, rfl⟩

/-- Inversion of `ReachFile` along the two rule shapes. -/
theorem reachFile_iff (es : List (String × FSNode)) (q : List String) :
    ReachFile es q ↔
      (∃ n, (n, FSNode.file) ∈ es ∧ q = [n]) ∨
      (∃ n sub q', (n, FSNode.dir sub) ∈ es ∧ q = n :: q' ∧ ReachFile sub q') := by
  constructor
  · intro h
    cases h with
    | here h => exact Or.inl ⟨_, h, rfl⟩
    | there h hp => exact Or.inr ⟨_, _, _, h, rfl, hp⟩
  · rintro (⟨n, h, rfl⟩ | ⟨n, sub, q', h, rfl, hp⟩)
    · exact ReachFile.here h
    · exact ReachFile.there h hp

/-- Joint characterisation, by strong induction on the tree size, of the walk:
`walkDirs` collects exactly the files reachable through some subdirectory
entry, and `osWalkFiles` collects exactly the reachable files. -/
theorem walk_spec_aux (k : Nat) :
    ∀ es : List (String × FSNode), sizeOf es ≤ k → ∀ pref p : List String,
      (p ∈ walkDirs pref es ↔
        ∃ n sub q, (n, FSNode.dir sub) ∈ es ∧ p = pref ++ n :: q ∧ ReachFile sub q) ∧
      (p ∈ osWalkFiles pref es ↔ ∃ q, p = pref ++ q ∧ ReachFile es q) := by
  induction k with
  | zero =>
      intro es hes
      exfalso
      cases es <;> simp at hes
  | succ k ih =>
      intro es hes pref p
      have hwd : p ∈ walkDirs pref es ↔
          ∃ n sub q, (n, FSNode.dir sub) ∈ es ∧ p = pref ++ n :: q ∧ ReachFile sub q := by
        match es with
        | [] => simp [walkDirs]
        | (m, FSNode.file) :: rest =>
            have hrest : sizeOf rest ≤ k := by
              simp at hes; omega
            rw [walkDirs]
            rw [(ih rest hrest pref p).1]
            constructor
            · rintro ⟨n, sub, q, hmem, rfl, hq⟩
              exact ⟨n, sub, q, List.mem_cons_of_mem _ hmem, rfl, hq⟩
            · rintro ⟨n, sub, q, hmem, rfl, hq⟩
              rcases List.mem_cons.mp hmem with heq | hmem'
              · exact absurd heq (by simp)
              · exact ⟨n, sub, q, hmem', rfl, hq⟩
        | (m, FSNode.dir sub) :: rest =>
            have hsub : sizeOf sub ≤ k := by
              simp at hes; omega
            have hrest : sizeOf rest ≤ k := by
              simp at hes; omega
            rw [walkDirs]
            rw [List.mem_append]
            rw [(ih sub hsub (pref ++ [m]) p).2]
            rw [(ih rest hrest pref p).1]
            constructor
            · rintro (⟨q, rfl, hq⟩ | ⟨n, sub', q, hmem, rfl, hq⟩)
              · exact ⟨m, sub, q, List.mem_cons_self _ _, by simp, hq⟩
              · exact ⟨n, sub', q, List.mem_cons_of_mem _ hmem, rfl, hq⟩
            · rintro ⟨n, sub', q, hmem, rfl, hq⟩
              rcases List.mem_cons.mp hmem with heq | hmem'
              · rcases Prod.mk.injEq .. ▸ heq with ⟨rfl, hnode⟩
                obtain rfl := (FSNode.dir.injEq .. ▸ hnode)
                exact Or.inl ⟨q, by simp, hq⟩
              · exact Or.inr ⟨n, sub', q, hmem', rfl, hq⟩
      refine ⟨hwd, ?_⟩
      rw [osWalkFiles]
      rw [List.mem_append]
      rw [mem_filesOfLevel]
      rw [hwd]
      constructor
      · rintro (⟨n, hmem, rfl⟩ | ⟨n, sub, q, hmem, rfl, hq⟩)
        · exact ⟨[n], rfl, ReachFile.here hmem⟩
        · exact ⟨n :: q, rfl, ReachFile.there hmem hq⟩
      · rintro ⟨q, rfl, hq⟩
        rcases (reachFile_iff es q).mp hq with ⟨n, hmem, rfl⟩ | ⟨n, sub, q', hmem, rfl, hq'⟩
        · exact Or.inl ⟨n, hmem, rfl⟩
        · exact Or.inr ⟨n, sub, q', hmem, rfl, hq'⟩

/-- The walk of a directory tree collects exactly the relative paths of the
regular files reachable by recursive traversal. -/
theorem mem_osWalkFiles_iff (es : List (String × FSNode)) (p : List String) :
    p ∈ osWalkFiles [] es ↔ ReachFile es p := by
  have h := (walk_spec_aux (sizeOf es) es (Nat.le_refl _) [] p).2
  simpa using h

/-- The key expression as the code builds it (from the `zip_filename` variable)
equals the spec's key formula. -/
theorem spec_key_shape ( s3p name : String) :
    pyLstripSlash (pyRstripSlash s3p ++ "/" ++ (name ++ ".zip")) =
      specRemoteKey s3p name := by
  simp [specRemoteKey, String.append_assoc]

/-- Run shape: the bucket-ensure step raised, so `upload_folder` propagates
its error and performs nothing further. -/
theorem upload_folder_ensure_error (c : S3Client) (t : Transport)
    (lp : List String) (node : Option FSNode) ( s3p tmp : String) (uok : Bool)
    (tr : List Event) (e : Err)
    (h : createBucketIfDoesntExist t c.bucket_name c.region = (tr, some e)) :
    upload_folder c t lp node s3p tmp uok = ⟨c, tr, some e⟩ := by
  unfold upload_folder
  rw [h]

/-- Run shape: the local path does not exist. -/
theorem upload_folder_run_missing (c : S3Client) (t : Transport)
    (lp : List String) ( s3p tmp : String) (uok : Bool) (tr : List Event)
    (h : createBucketIfDoesntExist t c.bucket_name c.region = (tr, none)) :
    upload_folder c t lp none s3p tmp uok = ⟨c, tr, some (Err.fileNotFound lp)⟩ := by
  unfold upload_folder
  rw [h]

/-- Run shape: the local path exists but is not a directory. -/
theorem upload_folder_run_notdir (c : S3Client) (t : Transport)
    (lp : List String) ( s3p tmp : String) (uok : Bool) (tr : List Event)
    (h : createBucketIfDoesntExist t c.bucket_name c.region = (tr, none)) :
    upload_folder c t lp (some FSNode.file) s3p tmp uok =
      ⟨c, tr, some (Err.notADirectory lp)⟩ := by
  unfold upload_folder
  rw [h]

/-- Run shape: directory found, archive built, but the transport upload
raises; the error propagates and no unlink happens. -/
theorem upload_folder_run_uploadErr (c : S3Client) (t : Transport)
    (lp : List String) (es : List (String × FSNode)) ( s3p tmp : String)
    (uok : Bool) (tr : List Event) (code : String)
    (h : createBucketIfDoesntExist t c.bucket_name c.region = (tr, none))
    (hup : t.uploadFile tmp c.bucket_name (specRemoteKey s3p (baseName lp)) =
      Except.error code) :
    upload_folder c t lp (some (FSNode.dir es)) s3p tmp uok =
      ⟨c, tr ++ [Event.createTemp tmp, Event.zipWrite tmp (osWalkFiles [] es),
                 Event.uploadFile tmp c.bucket_name (specRemoteKey s3p (baseName lp))],
       some (Err.clientError code)⟩ := by
  unfold upload_folder
  rw [h]
  simp only [spec_key_shape, hup]
  simp

/-- Run shape: directory found, archive built and uploaded; the temp file is
unlinked, and an unlink failure surfaces as the call's error. -/
theorem upload_folder_run_uploadOk (c : S3Client) (t : Transport)
    (lp : List String) (es : List (String × FSNode)) ( s3p tmp : String)
    (uok : Bool) (tr : List Event)
    (h : createBucketIfDoesntExist t c.bucket_name c.region = (tr, none))
    (hup : t.uploadFile tmp c.bucket_name (specRemoteKey s3p (baseName lp)) =
      Except.ok ()) :
    upload_folder c t lp (some (FSNode.dir es)) s3p tmp uok =
      ⟨c, tr ++ [Event.createTemp tmp, Event.zipWrite tmp (osWalkFiles [] es),
                 Event.uploadFile tmp c.bucket_name (specRemoteKey s3p (baseName lp)),
                 Event.unlink tmp uok],
       if uok then none else some (Err.unlinkFailed tmp)⟩ := by
  unfold upload_folder
  rw [h]
  simp only [spec_key_shape, hup]
  cases uok <;> simp

/-- Run shape: the transport download raises; the error propagates before any
directory creation or extraction. -/
theorem download_folder_run_fetchErr (c : S3Client) (t : Transport)
    (fs : LocalFS) (key : String) (lp : List String) (tmp : String)
    (uok : Bool) (code : String)
    (h : t.downloadFile c.bucket_name key = Except.error code) :
    download_folder c t fs key lp tmp uok =
      ⟨c, fs, [Event.createTemp tmp, Event.downloadFile c.bucket_name key tmp],
       some (Err.clientError code)⟩ := by
  unfold download_folder
  rw [h]

/-- Run shape: download succeeded but directory creation raised. -/
theorem download_folder_run_mkdirErr (c : S3Client) (t : Transport)
    (fs : LocalFS) (key : String) (lp : List String) (tmp : String)
    (uok : Bool) (entries : List (List String × Nat)) (e : Err)
    (h : t.downloadFile c.bucket_name key = Except.ok entries)
    (hmk : mkdir_parents_exist_ok fs lp = Except.error e) :
    download_folder c t fs key lp tmp uok =
      ⟨c, fs, [Event.createTemp tmp, Event.downloadFile c.bucket_name key tmp,
               Event.mkdirParents lp],
       some e⟩ := by
  unfold download_folder
  rw [h]
  simp only [hmk]
  simp

/-- Run shape: download and directory creation succeeded; the zip is
extracted and the temp file unlinked. -/
theorem download_folder_run_ok (c : S3Client) (t : Transport)
    (fs fs1 : LocalFS) (key : String) (lp : List String) (tmp : String)
    (uok : Bool) (entries : List (List String × Nat))
    (h : t.downloadFile c.bucket_name key = Except.ok entries)
    (hmk : mkdir_parents_exist_ok fs lp = Except.ok fs1) :
    download_folder c t fs key lp tmp uok =
      ⟨c, extractAllFS fs1 lp entries,
       [Event.createTemp tmp, Event.downloadFile c.bucket_name key tmp,
        Event.mkdirParents lp, Event.extractAll tmp lp,
        Event.unlink tmp uok],
       if uok then none else some (Err.unlinkFailed tmp)⟩ := by
  unfold download_folder
  rw [h]
  simp only [hmk]
  cases uok <;> simp

/-- `upload_folder` never reassigns the client's fields. -/
theorem upload_folder_self (c : S3Client) (t : Transport) (lp : List String)
    (node : Option FSNode) ( s3p tmp : String) (uok : Bool) :
    (upload_folder c t lp node s3p tmp uok).self = c := by
  rcases h : createBucketIfDoesntExist t c.bucket_name c.region with ⟨tr, _ | e⟩
  · rcases node with _ | node
    · rw [upload_folder_run_missing c t lp s3p tmp uok tr h]
    · rcases node with _ | es
      · rw [upload_folder_run_notdir c t lp s3p tmp uok tr h]
      · rcases hup : t.uploadFile tmp c.bucket_name (specRemoteKey s3p (baseName lp))
          with code | u
        · rw [upload_folder_run_uploadErr c t lp es s3p tmp uok tr code h hup]
        · rw [upload_folder_run_uploadOk c t lp es s3p tmp uok tr h hup]
  · rw [upload_folder_ensure_error c t lp node s3p tmp uok tr e h]

/-- `download_folder` never reassigns the client's fields. -/
theorem download_folder_self (c : S3Client) (t : Transport) (fs : LocalFS)
    (key : String) (lp : List String) (tmp : String) (uok : Bool) :
    (download_folder c t fs key lp tmp uok).self = c := by
  rcases h : t.downloadFile c.bucket_name key with code | entries
  · rw [download_folder_run_fetchErr c t fs key lp tmp uok code h]
  · rcases hmk : mkdir_parents_exist_ok fs lp with e | fs1
    · rw [download_folder_run_mkdirErr c t fs key lp tmp uok entries e h hmk]
    · rw [download_folder_run_ok c t fs fs1 key lp tmp uok entries h hmk]

/-- Every event of the bucket-ensure trace is the probe or the creation call. -/
theorem ensure_trace_mem (t : Transport) (b : String) (r : String) (ev : Event)
    (h : ev ∈ (createBucketIfDoesntExist t b r).1) :
    ev = Event.headBucket b ∨ ev = Event.createBucket b r := by
  rcases ensure_trace_cases t b r with h1 | h1 <;> rw [h1] at h
  · exact Or.inl (by simpa using h)
  · simpa using h

/-- A nonempty path is its own last segment chain element. -/
theorem self_mem_prefixesOf (p : List String) (h : p ≠ []) : p ∈ prefixesOf p := by
  induction p with
  | nil => exact absurd rfl h
  | cons a rest ih =>
      cases rest with
      | nil => simp [prefixesOf]
      | cons b rest' =>
          have hmem := ih (by simp)
          have hstep : prefixesOf (a :: b :: rest') =
              [a] :: (prefixesOf (b :: rest')).map (fun q => a :: q) := rfl
          rw [hstep]
          exact List.mem_cons_of_mem _ (List.mem_map.mpr ⟨b :: rest', hmem, rfl⟩)

/-- Appending the not-yet-present elements of `qs` makes every element of `qs`
a member. -/
theorem mem_dirs_append_filter (dirs : List (List String)) (qs : List (List String))
    (q : List String) (hq : q ∈ qs) :
    q ∈ dirs ++ qs.filter (fun x => decide (x ∉ dirs)) := by
  by_cases h : q ∈ dirs
  · exact List.mem_append_left _ h
  · exact List.mem_append_right _ (List.mem_filter.mpr ⟨hq, by simp [h]⟩)

/-- When the destination is absent and no chain segment is a file,
`mkdir_parents_exist_ok` creates every missing segment. -/
theorem mkdir_creates (fs : LocalFS) (lp : List String)
    (hne : lp ≠ []) (hnd : lp ∉ fs.dirs)
    (hnf : ∀ q ∈ prefixesOf lp, existsFileAt fs q = false) :
    mkdir_parents_exist_ok fs lp =
      Except.ok { fs with
        dirs := fs.dirs ++ (prefixesOf lp).filter (fun q => decide (q ∉ fs.dirs)) } := by
  have hself : existsFileAt fs lp = false := hnf lp (self_mem_prefixesOf lp hne)
  have h3 : (prefixesOf lp).any (fun q => existsFileAt fs q) = false := by
    rw [List.any_eq_false]
    intro q hq
    simp [hnf q hq]
  unfold mkdir_parents_exist_ok
  simp [hnd, hself, h3]

/-- When the destination already exists as a directory,
`mkdir_parents_exist_ok` is a no-op success. -/
theorem mkdir_existing_dir (fs : LocalFS) (lp : List String) (h : lp ∈ fs.dirs) :
    mkdir_parents_exist_ok fs lp = Except.ok fs := by
  unfold mkdir_parents_exist_ok
  rw [if_pos h]

/-- C4: in the Bucket Ensurer, a successful probe makes no further storage
call; a `404` probe response triggers a creation attempt in the client's
region, whose own failure surfaces as a provisioning error wrapping the
cause (and whose success ends the step without error); a `403` probe
response surfaces a permission error with creation never attempted; any
other probe error code is re-raised unmodified. -/
theorem bucket_ensurer_branches :
    (∀ (t : Transport) (b r : String), t.headBucket b = Except.ok () →
        createBucketIfDoesntExist t b r = ([Event.headBucket b], none)) ∧
    (∀ (t : Transport) (b r cause : String), t.headBucket b = Except.error "404" →
        t.createBucket b r = Except.error cause →
        createBucketIfDoesntExist t b r =
          ([Event.headBucket b, Event.createBucket b r],
           some (Err.bucketCreateFailed b cause))) ∧
    (∀ (t : Transport) (b r : String), t.headBucket b = Except.error "404" →
        t.createBucket b r = Except.ok () →
        createBucketIfDoesntExist t b r =
          ([Event.headBucket b, Event.createBucket b r], none)) ∧
    (∀ (t : Transport) (b r : String), t.headBucket b = Except.error "403" →
        createBucketIfDoesntExist t b r =
          ([Event.headBucket b], some (Err.noPermission b))) ∧
    (∀ (t : Transport) (b r code : String), t.headBucket b = Except.error code →
        code ≠ "404" → code ≠ "403" →
        createBucketIfDoesntExist t b r =
          ([Event.headBucket b], some (Err.clientError code))) := by
  refine ⟨?_, ?_, ?_, ?_, ?_⟩
  · intro t b r h
    unfold createBucketIfDoesntExist
    rw [h]
  · intro t b r cause h hc
    unfold createBucketIfDoesntExist
    rw [h]
    simp [hc]
  · intro t b r h hc
    unfold createBucketIfDoesntExist
    rw [h]
    simp [hc]
  · intro t b r h
    unfold createBucketIfDoesntExist
    rw [h]
    simp
  · intro t b r code h h4 h3
    unfold createBucketIfDoesntExist
    rw [h]
    simp [h4, h3]

/-- Witness for `bucket_ensurer_branches`: each branch evaluated on a
concrete transport. -/
theorem bucket_ensurer_branches_witness :
    createBucketIfDoesntExist
        ⟨fun _ => Except.ok (), fun _ _ => Except.ok (), fun _ _ _ => Except.ok (),
         fun _ _ => Except.ok []⟩ "b" "reg" = ([Event.headBucket "b"], none) ∧
    createBucketIfDoesntExist
        ⟨fun _ => Except.error "404", fun _ _ => Except.error "boom",
         fun _ _ _ => Except.ok (), fun _ _ => Except.ok []⟩ "b" "reg" =
      ([Event.headBucket "b", Event.createBucket "b" "reg"],
       some (Err.bucketCreateFailed "b" "boom")) ∧
    createBucketIfDoesntExist
        ⟨fun _ => Except.error "404", fun _ _ => Except.ok (),
         fun _ _ _ => Except.ok (), fun _ _ => Except.ok []⟩ "b" "reg" =
      ([Event.headBucket "b", Event.createBucket "b" "reg"], none) ∧
    createBucketIfDoesntExist
        ⟨fun _ => Except.error "403", fun _ _ => Except.ok (),
         fun _ _ _ => Except.ok (), fun _ _ => Except.ok []⟩ "b" "reg" =
      ([Event.headBucket "b"], some (Err.noPermission "b")) ∧
    createBucketIfDoesntExist
        ⟨fun _ => Except.error "500", fun _ _ => Except.ok (),
         fun _ _ _ => Except.ok (), fun _ _ => Except.ok []⟩ "b" "reg" =
      ([Event.headBucket "b"], some (Err.clientError "500")) :=
  ⟨bucket_ensurer_branches.1 _ "b" "reg" rfl,
   bucket_ensurer_branches.2.1 _ "b" "reg" "boom" rfl rfl,
   bucket_ensurer_branches.2.2.1 _ "b" "reg" rfl rfl,
   bucket_ensurer_branches.2.2.2.1 _ "b" "reg" rfl,
   bucket_ensurer_branches.2.2.2.2 _ "b" "reg" "500" rfl (by decide) (by decide)⟩

/-- C9: the client's bucket name and region are fixed at construction; no
sequence of `upload_folder` or `download_folder` calls changes the pair the
instance holds. -/
theorem client_bucket_region_immutable (c : S3Client) (ops : List Op) :
    (runOps c ops).bucket_name = c.bucket_name ∧ (runOps c ops).region = c.region := by
  induction ops generalizing c with
  | nil => exact ⟨rfl, rfl⟩
  | cons op rest ih =>
      have hop : runOp c op = c := by
        cases op with
        | upload t lp node pre tmp uok => exact upload_folder_self c t lp node pre tmp uok
        | download t fs pre lp tmp uok => exact download_folder_self c t fs pre lp tmp uok
      show (runOps (runOp c op) rest).bucket_name = c.bucket_name ∧
        (runOps (runOp c op) rest).region = c.region
      rw [hop]
      exact ih c

/-- C3: every upload request `upload_folder` issues carries the key
`<remotePrefix-without-trailing-slash>/<baseName(localPath)>.zip` with any
leading separator stripped; on the spec's examples, a folder named `notes`
yields key `notes.zip` for the empty prefix and `backups/notes.zip` for the
prefixes `backups/` and `/backups/`. -/
theorem upload_remote_key_derivation :
    (∀ (c : S3Client) (t : Transport) (lp : List String) (node : Option FSNode)
        ( s3p tmp : String) (uok : Bool) (src bk k : String),
        Event.uploadFile src bk k ∈ (upload_folder c t lp node s3p tmp uok).trace →
        k = specRemoteKey s3p (baseName lp)) ∧
    specRemoteKey "" "notes" = "notes.zip" ∧
    specRemoteKey "backups/" "notes" = "backups/notes.zip" ∧
    specRemoteKey "/backups/" "notes" = "backups/notes.zip" := by
  refine ⟨?_, by decide, by decide, by decide⟩
  intro c t lp node s3p tmp uok src bk k hmem
  have hens : ∀ ev ∈ (createBucketIfDoesntExist t c.bucket_name c.region).1,
      ev = Event.headBucket c.bucket_name ∨
      ev = Event.createBucket c.bucket_name c.region :=
    fun ev hev => ensure_trace_mem t c.bucket_name c.region ev hev
  rcases h : createBucketIfDoesntExist t c.bucket_name c.region with ⟨tr, e⟩
  rw [h] at hens
  have hnotr : Event.uploadFile src bk k ∉ tr := by
    intro hin
    rcases hens _ hin with h1 | h1 <;> exact absurd h1 (by simp)
  cases e with
  | some err =>
      rw [upload_folder_ensure_error c t lp node s3p tmp uok tr err h] at hmem
      exact absurd hmem hnotr
  | none =>
      cases node with
      | none =>
          rw [upload_folder_run_missing c t lp s3p tmp uok tr h] at hmem
          exact absurd hmem hnotr
      | some nd =>
          cases nd with
          | file =>
              rw [upload_folder_run_notdir c t lp s3p tmp uok tr h] at hmem
              exact absurd hmem hnotr
          | dir es =>
              rcases hup : t.uploadFile tmp c.bucket_name
                  (specRemoteKey s3p (baseName lp)) with code | u
              · rw [upload_folder_run_uploadErr c t lp es s3p tmp uok tr code h hup]
                  at hmem
                simp only [List.mem_append, List.mem_cons, List.not_mem_nil,
                  or_false] at hmem
                rcases hmem with hin | h1 | h1 | h1
                · exact absurd hin hnotr
                · exact absurd h1 (by simp)
                · exact absurd h1 (by simp)
                · exact (Event.uploadFile.injEq .. ▸ h1).2.2
              · rw [upload_folder_run_uploadOk c t lp es s3p tmp uok tr h hup]
                  at hmem
                simp only [List.mem_append, List.mem_cons, List.not_mem_nil,
                  or_false] at hmem
                rcases hmem with hin | h1 | h1 | h1 | h1
                · exact absurd hin hnotr
                · exact absurd h1 (by simp)
                · exact absurd h1 (by simp)
                · exact (Event.uploadFile.injEq .. ▸ h1).2.2
                · exact absurd h1 (by simp)

/-- Witness for `upload_remote_key_derivation`: a concrete run whose upload
request carries the derived key. -/
theorem upload_remote_key_derivation_witness :
    "backups/notes.zip" = specRemoteKey "backups/" (baseName ["data", "notes"]) :=
  upload_remote_key_derivation.1 ⟨"b", "reg"⟩
    ⟨fun _ => Except.ok (), fun _ _ => Except.ok (), fun _ _ _ => Except.ok (),
     fun _ _ => Except.ok []⟩
    ["data", "notes"] (some (FSNode.dir [])) "backups/" "/tmp/a.zip" true
    "/tmp/a.zip" "b" "backups/notes.zip"
    (by
      rw [upload_folder_run_uploadOk ⟨"b", "reg"⟩
        ⟨fun _ => Except.ok (), fun _ _ => Except.ok (), fun _ _ _ => Except.ok (),
         fun _ _ => Except.ok []⟩ ["data", "notes"] []
        "backups/" "/tmp/a.zip" true [Event.headBucket "b"] rfl rfl]
      have hw : osWalkFiles ([] : List String) ([] : List (String × FSNode)) = [] := by
        simp [osWalkFiles, walkDirs, filesOfLevel]
      rw [hw]
      decide)

/-- C1 is false of the code: on this run the archive is built, the transport
upload raises, and the caller observes that transport error, yet no unlink of
the temporary archive happens at all (the cleanup line sits after the upload
on the straight-line path only). -/
theorem upload_failure_cleanup_cex :
    (upload_folder ⟨"b", "reg"⟩
        ⟨fun _ => Except.ok (), fun _ _ => Except.ok (),
         fun _ _ _ => Except.error "500", fun _ _ => Except.ok []⟩
        ["notes"] (some (FSNode.dir [])) "" "/tmp/t.zip" true).error =
      some (Err.clientError "500") ∧
    Event.zipWrite "/tmp/t.zip" [] ∈
      (upload_folder ⟨"b", "reg"⟩
        ⟨fun _ => Except.ok (), fun _ _ => Except.ok (),
         fun _ _ _ => Except.error "500", fun _ _ => Except.ok []⟩
        ["notes"] (some (FSNode.dir [])) "" "/tmp/t.zip" true).trace ∧
    Event.unlink "/tmp/t.zip" true ∉
      (upload_folder ⟨"b", "reg"⟩
        ⟨fun _ => Except.ok (), fun _ _ => Except.ok (),
         fun _ _ _ => Except.error "500", fun _ _ => Except.ok []⟩
        ["notes"] (some (FSNode.dir [])) "" "/tmp/t.zip" true).trace ∧
    Event.unlink "/tmp/t.zip" false ∉
      (upload_folder ⟨"b", "reg"⟩
        ⟨fun _ => Except.ok (), fun _ _ => Except.ok (),
         fun _ _ _ => Except.error "500", fun _ _ => Except.ok []⟩
        ["notes"] (some (FSNode.dir [])) "" "/tmp/t.zip" true).trace := by
  rw [upload_folder_run_uploadErr ⟨"b", "reg"⟩
    ⟨fun _ => Except.ok (), fun _ _ => Except.ok (),
     fun _ _ _ => Except.error "500", fun _ _ => Except.ok []⟩
    ["notes"] [] "" "/tmp/t.zip" true [Event.headBucket "b"] "500" rfl rfl]
  have hw : osWalkFiles ([] : List String) ([] : List (String × FSNode)) = [] := by
    simp [osWalkFiles, walkDirs, filesOfLevel]
  rw [hw]
  decide

/-- C1 (amended): when the archive has been built and the transport upload
fails, the caller observes the original transport error, but the local
temporary archive is not deleted: no unlink of the temp path is attempted on
that exit path. -/
theorem upload_transport_failure_keeps_temp :
    ∀ (c : S3Client) (t : Transport) (lp : List String)
      (es : List (String × FSNode)) ( s3p tmp : String) (uok : Bool) (code : String),
      (createBucketIfDoesntExist t c.bucket_name c.region).2 = none →
      t.uploadFile tmp c.bucket_name (specRemoteKey s3p (baseName lp)) =
        Except.error code →
      ((upload_folder c t lp (some (FSNode.dir es)) s3p tmp uok).error =
          some (Err.clientError code) ∧
       Event.zipWrite tmp (osWalkFiles [] es) ∈
         (upload_folder c t lp (some (FSNode.dir es)) s3p tmp uok).trace ∧
       (∀ b : Bool, Event.unlink tmp b ∉
         (upload_folder c t lp (some (FSNode.dir es)) s3p tmp uok).trace)) := by
  intro c t lp es s3p tmp uok code hens hup
  rcases h : createBucketIfDoesntExist t c.bucket_name c.region with ⟨tr, e⟩
  rw [h] at hens
  obtain rfl : e = none := hens
  rw [upload_folder_run_uploadErr c t lp es s3p tmp uok tr code h hup]
  refine ⟨rfl, by simp, ?_⟩
  intro b hb
  simp only [List.mem_append, List.mem_cons, List.not_mem_nil, or_false] at hb
  rcases hb with hin | h1 | h1 | h1
  · rcases ensure_trace_mem t c.bucket_name c.region _ (by rw [h]; exact hin)
      with h1 | h1 <;> exact absurd h1 (by simp)
  · exact absurd h1 (by simp)
  · exact absurd h1 (by simp)
  · exact absurd h1 (by simp)

/-- Witness for `upload_transport_failure_keeps_temp` on a concrete run. -/
theorem upload_transport_failure_keeps_temp_witness :
    (upload_folder ⟨"b2", "r2"⟩
        ⟨fun _ => Except.ok (), fun _ _ => Except.ok (),
         fun _ _ _ => Except.error "503", fun _ _ => Except.ok []⟩
        ["n"] (some (FSNode.dir [("f", FSNode.file)])) "p" "/tmp/w.zip" true).error =
      some (Err.clientError "503") ∧
    Event.unlink "/tmp/w.zip" true ∉
      (upload_folder ⟨"b2", "r2"⟩
        ⟨fun _ => Except.ok (), fun _ _ => Except.ok (),
         fun _ _ _ => Except.error "503", fun _ _ => Except.ok []⟩
        ["n"] (some (FSNode.dir [("f", FSNode.file)])) "p" "/tmp/w.zip" true).trace := by
  have h := upload_transport_failure_keeps_temp ⟨"b2", "r2"⟩
    ⟨fun _ => Except.ok (), fun _ _ => Except.ok (),
     fun _ _ _ => Except.error "503", fun _ _ => Except.ok []⟩
    ["n"] [("f", FSNode.file)] "p" "/tmp/w.zip" true "503" rfl rfl
  exact ⟨h.1, h.2.2 true⟩

/-- C2 is false of the code: with a missing local path the call does fail with
the not-found error, but the bucket probe (a network call) has already been
issued, because the ensure step runs before the precondition checks. -/
theorem upload_precondition_network_cex :
    (upload_folder ⟨"b", "reg"⟩
        ⟨fun _ => Except.ok (), fun _ _ => Except.ok (), fun _ _ _ => Except.ok (),
         fun _ _ => Except.ok []⟩
        ["missing"] none "" "/tmp/t.zip" true).error =
      some (Err.fileNotFound ["missing"]) ∧
    Event.headBucket "b" ∈
      (upload_folder ⟨"b", "reg"⟩
        ⟨fun _ => Except.ok (), fun _ _ => Except.ok (), fun _ _ _ => Except.ok (),
         fun _ _ => Except.ok []⟩
        ["missing"] none "" "/tmp/t.zip" true).trace := by
  decide

/-- C2 (amended): when the local path is missing or not a directory (and the
bucket-ensure step itself does not raise), the precondition failure is raised
before the archive is created and before any upload request is issued — the
trace of such a call is exactly the bucket-ensure trace — but only after the
bucket probe has been issued. -/
theorem upload_precondition_checks_after_probe :
    (∀ (c : S3Client) (t : Transport) (lp : List String) ( s3p tmp : String)
        (uok : Bool),
      (createBucketIfDoesntExist t c.bucket_name c.region).2 = none →
      ((upload_folder c t lp none s3p tmp uok).error = some (Err.fileNotFound lp) ∧
       (upload_folder c t lp none s3p tmp uok).trace =
         (createBucketIfDoesntExist t c.bucket_name c.region).1 ∧
       Event.headBucket c.bucket_name ∈ (upload_folder c t lp none s3p tmp uok).trace ∧
       (∀ p, Event.createTemp p ∉ (upload_folder c t lp none s3p tmp uok).trace) ∧
       (∀ p l, Event.zipWrite p l ∉ (upload_folder c t lp none s3p tmp uok).trace) ∧
       (∀ a b k, Event.uploadFile a b k ∉
         (upload_folder c t lp none s3p tmp uok).trace))) ∧
    (∀ (c : S3Client) (t : Transport) (lp : List String) ( s3p tmp : String)
        (uok : Bool),
      (createBucketIfDoesntExist t c.bucket_name c.region).2 = none →
      ((upload_folder c t lp (some FSNode.file) s3p tmp uok).error =
          some (Err.notADirectory lp) ∧
       (upload_folder c t lp (some FSNode.file) s3p tmp uok).trace =
         (createBucketIfDoesntExist t c.bucket_name c.region).1 ∧
       Event.headBucket c.bucket_name ∈
         (upload_folder c t lp (some FSNode.file) s3p tmp uok).trace ∧
       (∀ p, Event.createTemp p ∉
         (upload_folder c t lp (some FSNode.file) s3p tmp uok).trace) ∧
       (∀ p l, Event.zipWrite p l ∉
         (upload_folder c t lp (some FSNode.file) s3p tmp uok).trace) ∧
       (∀ a b k, Event.uploadFile a b k ∉
         (upload_folder c t lp (some FSNode.file) s3p tmp uok).trace))) := by
  constructor
  · intro c t lp s3p tmp uok hens
    rcases h : createBucketIfDoesntExist t c.bucket_name c.region with ⟨tr, e⟩
    rw [h] at hens
    obtain rfl : e = none := hens
    rw [upload_folder_run_missing c t lp s3p tmp uok tr h]
    refine ⟨rfl, rfl, ?_, ?_, ?_, ?_⟩
    · have hm := headBucket_mem_ensure_trace t c.bucket_name c.region
      rw [h] at hm
      exact hm
    · intro p hp
      rcases ensure_trace_mem t c.bucket_name c.region _ (by rw [h]; exact hp)
        with h1 | h1 <;> exact absurd h1 (by simp)
    · intro p l hp
      rcases ensure_trace_mem t c.bucket_name c.region _ (by rw [h]; exact hp)
        with h1 | h1 <;> exact absurd h1 (by simp)
    · intro a b k hp
      rcases ensure_trace_mem t c.bucket_name c.region _ (by rw [h]; exact hp)
        with h1 | h1 <;> exact absurd h1 (by simp)
  · intro c t lp s3p tmp uok hens
    rcases h : createBucketIfDoesntExist t c.bucket_name c.region with ⟨tr, e⟩
    rw [h] at hens
    obtain rfl : e = none := hens
    rw [upload_folder_run_notdir c t lp s3p tmp uok tr h]
    refine ⟨rfl, rfl, ?_, ?_, ?_, ?_⟩
    · have hm := headBucket_mem_ensure_trace t c.bucket_name c.region
      rw [h] at hm
      exact hm
    · intro p hp
      rcases ensure_trace_mem t c.bucket_name c.region _ (by rw [h]; exact hp)
        with h1 | h1 <;> exact absurd h1 (by simp)
    · intro p l hp
      rcases ensure_trace_mem t c.bucket_name c.region _ (by rw [h]; exact hp)
        with h1 | h1 <;> exact absurd h1 (by simp)
    · intro a b k hp
      rcases ensure_trace_mem t c.bucket_name c.region _ (by rw [h]; exact hp)
        with h1 | h1 <;> exact absurd h1 (by simp)

/-- Witness for `upload_precondition_checks_after_probe` on a concrete run. -/
theorem upload_precondition_checks_after_probe_witness :
    (upload_folder ⟨"b3", "r3"⟩
        ⟨fun _ => Except.ok (), fun _ _ => Except.ok (), fun _ _ _ => Except.ok (),
         fun _ _ => Except.ok []⟩
        ["nope"] none "q" "/tmp/p.zip" false).error =
      some (Err.fileNotFound ["nope"]) ∧
    Event.headBucket "b3" ∈
      (upload_folder ⟨"b3", "r3"⟩
        ⟨fun _ => Except.ok (), fun _ _ => Except.ok (), fun _ _ _ => Except.ok (),
         fun _ _ => Except.ok []⟩
        ["nope"] none "q" "/tmp/p.zip" false).trace ∧
    Event.createTemp "/tmp/p.zip" ∉
      (upload_folder ⟨"b3", "r3"⟩
        ⟨fun _ => Except.ok (), fun _ _ => Except.ok (), fun _ _ _ => Except.ok (),
         fun _ _ => Except.ok []⟩
        ["nope"] none "q" "/tmp/p.zip" false).trace := by
  have h := upload_precondition_checks_after_probe.1 ⟨"b3", "r3"⟩
    ⟨fun _ => Except.ok (), fun _ _ => Except.ok (), fun _ _ _ => Except.ok (),
     fun _ _ => Except.ok []⟩
    ["nope"] "q" "/tmp/p.zip" false rfl
  exact ⟨h.1, h.2.2.1, h.2.2.2.1 "/tmp/p.zip"⟩

/-- C5 is false of the code: on a successful upload whose final unlink fails,
the unlink error propagates to the caller (so a deletion failure is not
swallowed); and on a failed download no deletion is attempted at all. -/
theorem temp_cleanup_cex :
    (upload_folder ⟨"b", "reg"⟩
        ⟨fun _ => Except.ok (), fun _ _ => Except.ok (), fun _ _ _ => Except.ok (),
         fun _ _ => Except.ok []⟩
        ["notes"] (some (FSNode.dir [])) "" "/tmp/t.zip" false).error =
      some (Err.unlinkFailed "/tmp/t.zip") ∧
    Event.unlink "/tmp/d.zip" true ∉
      (download_folder ⟨"b", "reg"⟩
        ⟨fun _ => Except.ok (), fun _ _ => Except.ok (), fun _ _ _ => Except.ok (),
         fun _ _ => Except.error "404"⟩
        ⟨[], []⟩ "k" ["d"] "/tmp/d.zip" true).trace ∧
    Event.unlink "/tmp/d.zip" false ∉
      (download_folder ⟨"b", "reg"⟩
        ⟨fun _ => Except.ok (), fun _ _ => Except.ok (), fun _ _ _ => Except.ok (),
         fun _ _ => Except.error "404"⟩
        ⟨[], []⟩ "k" ["d"] "/tmp/d.zip" true).trace := by
  refine ⟨?_, by decide, by decide⟩
  rw [upload_folder_run_uploadOk ⟨"b", "reg"⟩
    ⟨fun _ => Except.ok (), fun _ _ => Except.ok (), fun _ _ _ => Except.ok (),
     fun _ _ => Except.ok []⟩
    ["notes"] [] "" "/tmp/t.zip" false [Event.headBucket "b"] rfl rfl]
  decide

/-- C5 (amended): in both operations the temporary archive is unlinked only on
the fully successful path: after a transport failure (upload or download) or
a directory-creation failure (download) no unlink is attempted, and when the
final unlink itself fails its error propagates to the caller as the call's
error. -/
theorem temp_cleanup_success_only :
    (∀ (c : S3Client) (t : Transport) (lp : List String)
        (es : List (String × FSNode)) ( s3p tmp : String) (uok : Bool) (code : String),
        (createBucketIfDoesntExist t c.bucket_name c.region).2 = none →
        t.uploadFile tmp c.bucket_name (specRemoteKey s3p (baseName lp)) =
          Except.error code →
        ∀ b : Bool, Event.unlink tmp b ∉
          (upload_folder c t lp (some (FSNode.dir es)) s3p tmp uok).trace) ∧
    (∀ (c : S3Client) (t : Transport) (lp : List String)
        (es : List (String × FSNode)) ( s3p tmp : String),
        (createBucketIfDoesntExist t c.bucket_name c.region).2 = none →
        t.uploadFile tmp c.bucket_name (specRemoteKey s3p (baseName lp)) =
          Except.ok () →
        ((upload_folder c t lp (some (FSNode.dir es)) s3p tmp false).error =
            some (Err.unlinkFailed tmp) ∧
         Event.unlink tmp false ∈
           (upload_folder c t lp (some (FSNode.dir es)) s3p tmp false).trace)) ∧
    (∀ (c : S3Client) (t : Transport) (fs : LocalFS) (key : String)
        (lp : List String) (tmp : String) (uok : Bool) (code : String),
        t.downloadFile c.bucket_name key = Except.error code →
        ∀ b : Bool, Event.unlink tmp b ∉
          (download_folder c t fs key lp tmp uok).trace) ∧
    (∀ (c : S3Client) (t : Transport) (fs : LocalFS) (key : String)
        (lp : List String) (tmp : String) (uok : Bool)
        (entries : List (List String × Nat)) (e : Err),
        t.downloadFile c.bucket_name key = Except.ok entries →
        mkdir_parents_exist_ok fs lp = Except.error e →
        ∀ b : Bool, Event.unlink tmp b ∉
          (download_folder c t fs key lp tmp uok).trace) ∧
    (∀ (c : S3Client) (t : Transport) (fs fs1 : LocalFS) (key : String)
        (lp : List String) (tmp : String)
        (entries : List (List String × Nat)),
        t.downloadFile c.bucket_name key = Except.ok entries →
        mkdir_parents_exist_ok fs lp = Except.ok fs1 →
        ((download_folder c t fs key lp tmp false).error =
            some (Err.unlinkFailed tmp) ∧
         Event.unlink tmp false ∈ (download_folder c t fs key lp tmp false).trace)) := by
  refine ⟨?_, ?_, ?_, ?_, ?_⟩
  · intro c t lp es s3p tmp uok code hens hup
    exact fun b =>
      (upload_transport_failure_keeps_temp c t lp es s3p tmp uok code hens hup).2.2 b
  · intro c t lp es s3p tmp hens hup
    rcases h : createBucketIfDoesntExist t c.bucket_name c.region with ⟨tr, e⟩
    rw [h] at hens
    obtain rfl : e = none := hens
    rw [upload_folder_run_uploadOk c t lp es s3p tmp false tr h hup]
    exact ⟨rfl, by simp⟩
  · intro c t fs key lp tmp uok code hdl b hb
    rw [download_folder_run_fetchErr c t fs key lp tmp uok code hdl] at hb
    simp at hb
  · intro c t fs key lp tmp uok entries e hdl hmk b hb
    rw [download_folder_run_mkdirErr c t fs key lp tmp uok entries e hdl hmk] at hb
    simp at hb
  · intro c t fs fs1 key lp tmp entries hdl hmk
    rw [download_folder_run_ok c t fs fs1 key lp tmp false entries hdl hmk]
    exact ⟨rfl, by simp⟩

/-- Witness for `temp_cleanup_success_only` on concrete runs. -/
theorem temp_cleanup_success_only_witness :
    Event.unlink "/tmp/u.zip" true ∉
      (upload_folder ⟨"b5", "r5"⟩
        ⟨fun _ => Except.ok (), fun _ _ => Except.ok (),
         fun _ _ _ => Except.error "500", fun _ _ => Except.ok []⟩
        ["m"] (some (FSNode.dir [])) "" "/tmp/u.zip" true).trace ∧
    (download_folder ⟨"b5", "r5"⟩
        ⟨fun _ => Except.ok (), fun _ _ => Except.ok (), fun _ _ _ => Except.ok (),
         fun _ _ => Except.ok [(["a"], 7)]⟩
        ⟨[["d5"]], []⟩ "k" ["d5"] "/tmp/v.zip" false).error =
      some (Err.unlinkFailed "/tmp/v.zip") := by
  have h1 := temp_cleanup_success_only.1 ⟨"b5", "r5"⟩
    ⟨fun _ => Except.ok (), fun _ _ => Except.ok (),
     fun _ _ _ => Except.error "500", fun _ _ => Except.ok []⟩
    ["m"] [] "" "/tmp/u.zip" true "500" rfl rfl true
  have h2 := (temp_cleanup_success_only.2.2.2.2 ⟨"b5", "r5"⟩
    ⟨fun _ => Except.ok (), fun _ _ => Except.ok (), fun _ _ _ => Except.ok (),
     fun _ _ => Except.ok [(["a"], 7)]⟩
    ⟨[["d5"]], []⟩ ⟨[["d5"]], []⟩ "k" ["d5"] "/tmp/v.zip" [(["a"], 7)] rfl
    (mkdir_existing_dir ⟨[["d5"]], []⟩ ["d5"] (by decide))).1
  exact ⟨h1, h2⟩

/-- C8 is false of the code: with a missing local path but a forbidden bucket
probe, the call fails with the permission error rather than the not-found
error, because the ensure step runs first. -/
theorem upload_error_kind_cex :
    (upload_folder ⟨"b", "reg"⟩
        ⟨fun _ => Except.error "403", fun _ _ => Except.ok (),
         fun _ _ _ => Except.ok (), fun _ _ => Except.ok []⟩
        ["missing"] none "" "/tmp/t.zip" true).error =
      some (Err.noPermission "b") ∧
    (upload_folder ⟨"b", "reg"⟩
        ⟨fun _ => Except.error "403", fun _ _ => Except.ok (),
         fun _ _ _ => Except.ok (), fun _ _ => Except.ok []⟩
        ["missing"] none "" "/tmp/t.zip" true).error ≠
      some (Err.fileNotFound ["missing"]) := by
  decide

/-- C8 (amended): provided the bucket-ensure step completes without raising,
`upload_folder` fails with the not-found kind exactly when the local path
does not exist, and with the not-a-directory kind exactly when the path
exists but is not a directory. -/
theorem upload_error_kinds_after_ensure :
    ∀ (c : S3Client) (t : Transport) (lp : List String) (node : Option FSNode)
      ( s3p tmp : String) (uok : Bool),
      (createBucketIfDoesntExist t c.bucket_name c.region).2 = none →
      (((upload_folder c t lp node s3p tmp uok).error =
          some (Err.fileNotFound lp)) ↔ node = none) ∧
      (((upload_folder c t lp node s3p tmp uok).error =
          some (Err.notADirectory lp)) ↔ node = some FSNode.file) := by
  intro c t lp node s3p tmp uok hens
  rcases h : createBucketIfDoesntExist t c.bucket_name c.region with ⟨tr, e⟩
  rw [h] at hens
  obtain rfl : e = none := hens
  cases node with
  | none =>
      rw [upload_folder_run_missing c t lp s3p tmp uok tr h]
      exact ⟨by simp, by simp⟩
  | some nd =>
      cases nd with
      | file =>
          rw [upload_folder_run_notdir c t lp s3p tmp uok tr h]
          exact ⟨by simp, by simp⟩
      | dir es =>
          rcases hup : t.uploadFile tmp c.bucket_name
              (specRemoteKey s3p (baseName lp)) with code | u
          · rw [upload_folder_run_uploadErr c t lp es s3p tmp uok tr code h hup]
            exact ⟨by simp, by simp⟩
          · rw [upload_folder_run_uploadOk c t lp es s3p tmp uok tr h hup]
            cases uok <;> exact ⟨by simp, by simp⟩

/-- Witness for `upload_error_kinds_after_ensure` on a concrete run. -/
theorem upload_error_kinds_after_ensure_witness :
    (upload_folder ⟨"b4", "r4"⟩
        ⟨fun _ => Except.ok (), fun _ _ => Except.ok (), fun _ _ _ => Except.ok (),
         fun _ _ => Except.ok []⟩
        ["gone"] none "" "/tmp/z.zip" true).error =
      some (Err.fileNotFound ["gone"]) := by
  have h := upload_error_kinds_after_ensure ⟨"b4", "r4"⟩
    ⟨fun _ => Except.ok (), fun _ _ => Except.ok (), fun _ _ _ => Except.ok (),
     fun _ _ => Except.ok []⟩
    ["gone"] none "" "/tmp/z.zip" true rfl
  exact h.1.mpr rfl

/-- Existing directories survive extraction. -/
theorem extractAllFS_dirs_super (fs : LocalFS) (dest : List String)
    (entries : List (List String × Nat)) (q : List String) (hq : q ∈ fs.dirs) :
    q ∈ (extractAllFS fs dest entries).dirs :=
  List.mem_append_left _ hq

/-- Every entry is written to its destination path by extraction. -/
theorem extractAllFS_files_new (fs : LocalFS) (dest : List String)
    (entries : List (List String × Nat)) (e : List String × Nat) (he : e ∈ entries) :
    (dest ++ e.1, e.2) ∈ (extractAllFS fs dest entries).files :=
  List.mem_append_right _ (List.mem_map.mpr ⟨e, he, rfl⟩)

/-- Extraction creates the subdirectories implied by an entry name. -/
theorem extractAllFS_implied_dirs (fs : LocalFS) (dest : List String)
    (entries : List (List String × Nat)) (e : List String × Nat) (q : List String)
    (he : e ∈ entries) (hq : q ∈ strictPrefixesOf (dest ++ e.1)) :
    q ∈ (extractAllFS fs dest entries).dirs := by
  by_cases h : q ∈ fs.dirs
  · exact List.mem_append_left _ h
  · exact List.mem_append_right _
      (List.mem_filter.mpr ⟨List.mem_flatMap.mpr ⟨e, he, hq⟩, by simp [h]⟩)

/-- Files at paths no entry overwrites are kept by extraction. -/
theorem extractAllFS_files_kept (fs : LocalFS) (dest : List String)
    (entries : List (List String × Nat)) (f : List String × Nat)
    (hf : f ∈ fs.files) (hkeep : ∀ e ∈ entries, dest ++ e.1 ≠ f.1) :
    f ∈ (extractAllFS fs dest entries).files :=
  List.mem_append_left _ (List.mem_filter.mpr ⟨hf, decide_eq_true hkeep⟩)

/-- C6: on a directory upload the archive written to the temporary zip file
contains an entry for every regular file reachable by recursive traversal
under the local path, each named by the file's path relative to that root,
and nothing else — directories (in particular empty ones) contribute no
entries, since only files are walked. -/
theorem upload_archive_entry_set :
    ∀ (c : S3Client) (t : Transport) (lp : List String)
      (es : List (String × FSNode)) ( s3p tmp : String) (uok : Bool),
      (createBucketIfDoesntExist t c.bucket_name c.region).2 = none →
      (Event.zipWrite tmp (osWalkFiles [] es) ∈
        (upload_folder c t lp (some (FSNode.dir es)) s3p tmp uok).trace ∧
       (∀ p, p ∈ osWalkFiles [] es ↔ ReachFile es p)) := by
  intro c t lp es s3p tmp uok hens
  refine ⟨?_, fun p => mem_osWalkFiles_iff es p⟩
  rcases h : createBucketIfDoesntExist t c.bucket_name c.region with ⟨tr, e⟩
  rw [h] at hens
  obtain rfl : e = none := hens
  rcases hup : t.uploadFile tmp c.bucket_name
      (specRemoteKey s3p (baseName lp)) with code | u
  · rw [upload_folder_run_uploadErr c t lp es s3p tmp uok tr code h hup]
    simp
  · rw [upload_folder_run_uploadOk c t lp es s3p tmp uok tr h hup]
    simp

/-- Witness for `upload_archive_entry_set`: a nested file is an entry of the
walk and an empty directory is not. -/
theorem upload_archive_entry_set_witness :
    (["sub", "b"] ∈ osWalkFiles []
        [("a", FSNode.file), ("sub", FSNode.dir [("b", FSNode.file)]),
         ("empty", FSNode.dir [])] ↔
      ReachFile
        [("a", FSNode.file), ("sub", FSNode.dir [("b", FSNode.file)]),
         ("empty", FSNode.dir [])] ["sub", "b"]) ∧
    (["empty"] ∈ osWalkFiles []
        [("a", FSNode.file), ("sub", FSNode.dir [("b", FSNode.file)]),
         ("empty", FSNode.dir [])] ↔
      ReachFile
        [("a", FSNode.file), ("sub", FSNode.dir [("b", FSNode.file)]),
         ("empty", FSNode.dir [])] ["empty"]) := by
  have h := upload_archive_entry_set ⟨"b6", "r6"⟩
    ⟨fun _ => Except.ok (), fun _ _ => Except.ok (), fun _ _ _ => Except.ok (),
     fun _ _ => Except.ok []⟩
    ["n"]
    [("a", FSNode.file), ("sub", FSNode.dir [("b", FSNode.file)]),
     ("empty", FSNode.dir [])]
    "" "/tmp/q.zip" true rfl
  exact ⟨h.2 ["sub", "b"], h.2 ["empty"]⟩

/-- C7: when the destination path does not yet exist (and no chain segment is
occupied by a file), `download_folder` creates the destination directory and
every missing parent, then extracts every entry of the downloaded zip into
it, recreating the directory structure implied by the entry names; the trace
shows creation happening after the fetch and before extraction. -/
theorem download_creates_missing_destination :
    ∀ (c : S3Client) (t : Transport) (fs : LocalFS) (key : String)
      (lp : List String) (tmp : String) (entries : List (List String × Nat)),
      t.downloadFile c.bucket_name key = Except.ok entries →
      lp ≠ [] →
      lp ∉ fs.dirs →
      (∀ q ∈ prefixesOf lp, existsFileAt fs q = false) →
      ((download_folder c t fs key lp tmp true).error = none ∧
       (∀ q ∈ prefixesOf lp, q ∈ (download_folder c t fs key lp tmp true).fs.dirs) ∧
       (∀ e ∈ entries,
          (lp ++ e.1, e.2) ∈ (download_folder c t fs key lp tmp true).fs.files) ∧
       (∀ e ∈ entries, ∀ q ∈ strictPrefixesOf (lp ++ e.1),
          q ∈ (download_folder c t fs key lp tmp true).fs.dirs) ∧
       (download_folder c t fs key lp tmp true).trace =
         [Event.createTemp tmp, Event.downloadFile c.bucket_name key tmp,
          Event.mkdirParents lp, Event.extractAll tmp lp,
          Event.unlink tmp true]) := by
  intro c t fs key lp tmp entries hdl hne hnd hnf
  have hmk := mkdir_creates fs lp hne hnd hnf
  rw [download_folder_run_ok c t fs
    { fs with dirs := fs.dirs ++ (prefixesOf lp).filter (fun q => decide (q ∉ fs.dirs)) }
    key lp tmp true entries hdl hmk]
  refine ⟨by simp, ?_, ?_, ?_, by simp⟩
  · intro q hq
    exact extractAllFS_dirs_super _ lp entries q
      (mem_dirs_append_filter fs.dirs (prefixesOf lp) q hq)
  · intro e he
    exact extractAllFS_files_new _ lp entries e he
  · intro e he q hq
    exact extractAllFS_implied_dirs _ lp entries e q he hq

/-- Witness for `download_creates_missing_destination` on a concrete run. -/
theorem download_creates_missing_destination_witness :
    (download_folder ⟨"b7", "r7"⟩
        ⟨fun _ => Except.ok (), fun _ _ => Except.ok (), fun _ _ _ => Except.ok (),
         fun _ _ => Except.ok [(["a"], 5)]⟩
        ⟨[], []⟩ "k" ["new", "nested", "dir"] "/tmp/n.zip" true).error = none ∧
    ["new", "nested", "dir"] ∈
      (download_folder ⟨"b7", "r7"⟩
        ⟨fun _ => Except.ok (), fun _ _ => Except.ok (), fun _ _ _ => Except.ok (),
         fun _ _ => Except.ok [(["a"], 5)]⟩
        ⟨[], []⟩ "k" ["new", "nested", "dir"] "/tmp/n.zip" true).fs.dirs ∧
    (["new", "nested", "dir", "a"], 5) ∈
      (download_folder ⟨"b7", "r7"⟩
        ⟨fun _ => Except.ok (), fun _ _ => Except.ok (), fun _ _ _ => Except.ok (),
         fun _ _ => Except.ok [(["a"], 5)]⟩
        ⟨[], []⟩ "k" ["new", "nested", "dir"] "/tmp/n.zip" true).fs.files := by
  have h := download_creates_missing_destination ⟨"b7", "r7"⟩
    ⟨fun _ => Except.ok (), fun _ _ => Except.ok (), fun _ _ _ => Except.ok (),
     fun _ _ => Except.ok [(["a"], 5)]⟩
    ⟨[], []⟩ "k" ["new", "nested", "dir"] "/tmp/n.zip" [(["a"], 5)]
    rfl (by decide) (by decide) (by decide)
  exact ⟨h.1, h.2.1 ["new", "nested", "dir"] (by decide),
    h.2.2.1 (["a"], 5) (by decide)⟩

/-- C10: when the destination already exists as a directory, the creation
step succeeds as a no-op (no already-exists error), extraction proceeds into
the existing directory, and the archive's entries are merged with the content
already present: every entry is written under the destination and every
existing file at a path no entry overwrites is kept. -/
theorem download_into_existing_directory :
    ∀ (c : S3Client) (t : Transport) (fs : LocalFS) (key : String)
      (lp : List String) (tmp : String) (uok : Bool)
      (entries : List (List String × Nat)),
      t.downloadFile c.bucket_name key = Except.ok entries →
      lp ∈ fs.dirs →
      (mkdir_parents_exist_ok fs lp = Except.ok fs ∧
       Event.extractAll tmp lp ∈ (download_folder c t fs key lp tmp uok).trace ∧
       (download_folder c t fs key lp tmp uok).fs = extractAllFS fs lp entries ∧
       (∀ e ∈ entries,
          (lp ++ e.1, e.2) ∈ (download_folder c t fs key lp tmp uok).fs.files) ∧
       (∀ f ∈ fs.files, (∀ e ∈ entries, lp ++ e.1 ≠ f.1) →
          f ∈ (download_folder c t fs key lp tmp uok).fs.files)) := by
  intro c t fs key lp tmp uok entries hdl hex
  have hmk := mkdir_existing_dir fs lp hex
  rw [download_folder_run_ok c t fs fs key lp tmp uok entries hdl hmk]
  refine ⟨hmk, by simp, rfl, ?_, ?_⟩
  · intro e he
    exact extractAllFS_files_new fs lp entries e he
  · intro f hf hkeep
    exact extractAllFS_files_kept fs lp entries f hf hkeep

/-- Witness for `download_into_existing_directory` on a concrete run with an
overwritten file and a preserved file. -/
theorem download_into_existing_directory_witness :
    mkdir_parents_exist_ok ⟨[["d"]], [(["d", "old"], 1), (["d", "a"], 2)]⟩ ["d"] =
      Except.ok ⟨[["d"]], [(["d", "old"], 1), (["d", "a"], 2)]⟩ ∧
    (["d", "a"], 9) ∈
      (download_folder ⟨"b8", "r8"⟩
        ⟨fun _ => Except.ok (), fun _ _ => Except.ok (), fun _ _ _ => Except.ok (),
         fun _ _ => Except.ok [(["a"], 9)]⟩
        ⟨[["d"]], [(["d", "old"], 1), (["d", "a"], 2)]⟩
        "k" ["d"] "/tmp/m.zip" true).fs.files ∧
    (["d", "old"], 1) ∈
      (download_folder ⟨"b8", "r8"⟩
        ⟨fun _ => Except.ok (), fun _ _ => Except.ok (), fun _ _ _ => Except.ok (),
         fun _ _ => Except.ok [(["a"], 9)]⟩
        ⟨[["d"]], [(["d", "old"], 1), (["d", "a"], 2)]⟩
        "k" ["d"] "/tmp/m.zip" true).fs.files := by
  have h := download_into_existing_directory ⟨"b8", "r8"⟩
    ⟨fun _ => Except.ok (), fun _ _ => Except.ok (), fun _ _ _ => Except.ok (),
     fun _ _ => Except.ok [(["a"], 9)]⟩
    ⟨[["d"]], [(["d", "old"], 1), (["d", "a"], 2)]⟩
    "k" ["d"] "/tmp/m.zip" true [(["a"], 9)] rfl (by decide)
  exact ⟨h.1, h.2.2.2.1 (["a"], 9) (by decide),
    h.2.2.2.2 (["d", "old"], 1) (by decide) (by decide)⟩
